import Mathlib

/-!
# A verification development for the distributed ray-coordination core
# of the r2t2/pbrt-v3 serverless path tracer

This file shallowly embeds the parts of the C++ sources that the verified
properties are about:

* the tile partitioner `getTile` of the coordinator (`LambdaMaster`),
* the `RayState` protobuf codec (`to_protobuf` / `from_protobuf`),
* the worker's per-ray decision step (`LambdaWorker::handleRayQueue`),
* the worker's queue-routing state and the `ConnectionResponse` handler,
* the outbound packetizer (`LambdaWorker::handleOutQueue`),
* the per-peer connection state machine,
* the coordinator's worker-request broker (`LambdaMaster::handleWorkerRequests`),
* the coordinator's object-assignment bookkeeping (`LambdaMaster::assignObject`).

Machine scalars: tile indices and counts are C++ `uint32_t` and never
overflow in the modelled arithmetic (`tileCount - tileCount / 2` and
`tileIndex / 2` stay within range), so they are embedded as `Nat`; pixel
coordinates are C++ `int` embedded as `Int` (the midpoint computations use
C++ truncating division, embedded as `Int.tdiv`).

Float scalars (`pbrt::Float` fields of a ray state) are embedded as opaque
values of the type `SFloat := Int`: every modelled code path only copies
such scalars verbatim or overwrites them with the constant zero — protobuf
float round-trips are bit-exact and the codec performs no float
arithmetic — so any type with a zero and decidable equality represents
them faithfully.
-/

/-- Scalar standing in for `pbrt::Float`; only copied or zeroed, never
computed with, in the embedded code. -/
abbrev SFloat := Int

/-- `pbrt::Point2i` (`core/geometry.h`): integer pixel coordinates. -/
structure Point2i where
  x : Int
  y : Int
deriving DecidableEq, Repr

/-- `pbrt::Point2f`. -/
structure Point2f where
  x : SFloat
  y : SFloat
deriving DecidableEq, Repr

/-- `pbrt::Point3f` / `Vector3f`: same three-scalar layout, copied
field-by-field by the codec. -/
structure Point3f where
  x : SFloat
  y : SFloat
  z : SFloat
deriving DecidableEq, Repr

/-- `pbrt::Bounds2i`: an axis-aligned integer rectangle.  As in pbrt, the
pixel set it denotes is half-open: iteration (`begin`/`end`, used by
`LambdaWorker::generateRays`) and `InsideExclusive` cover
`[pMin.x, pMax.x) × [pMin.y, pMax.y)`. -/
structure Bounds2i where
  pMin : Point2i
  pMax : Point2i
deriving DecidableEq, Repr

/-- `pbrt::InsideExclusive(p, b)`: membership of a pixel in the half-open
pixel set of a `Bounds2i`. -/
def insideExclusive (p : Point2i) (b : Bounds2i) : Bool :=
  decide (b.pMin.x ≤ p.x) && decide (p.x < b.pMax.x) &&
  decide (b.pMin.y ≤ p.y) && decide (p.y < b.pMax.y)

/-- The split computation inside `getTile` (coordinator source,
`lambda-master.cpp`).  One halving step of `bounds`: vertically (split the
y-range at `yMid`) when `splitVertical`, horizontally otherwise.  The
horizontal branch reproduces the source exactly, including its cross-axis
guard: it compares `xMid` with `bounds.pMin.y` / `bounds.pMax.y` (the *y*
coordinates), not with the x coordinates. -/
def splitBounds (bounds : Bounds2i) (splitVertical : Bool) :
    Except String (Bounds2i × Bounds2i) :=
  if splitVertical then
    let yMid := Int.tdiv (bounds.pMax.y + bounds.pMin.y) 2
    if yMid = bounds.pMin.y ∨ yMid = bounds.pMax.y then
      Except.error "Tried to split a rectangle across an axis of length 1"
    else
      Except.ok (⟨bounds.pMin, ⟨bounds.pMax.x, yMid⟩⟩,
                 ⟨⟨bounds.pMin.x, yMid⟩, bounds.pMax⟩)
  else
    let xMid := Int.tdiv (bounds.pMax.x + bounds.pMin.x) 2
    if xMid = bounds.pMin.y ∨ xMid = bounds.pMax.y then
      Except.error "Tried to split a rectangle across an axis of length 1"
    else
      Except.ok (⟨bounds.pMin, ⟨xMid, bounds.pMax.y⟩⟩,
                 ⟨⟨xMid, bounds.pMin.y⟩, bounds.pMax⟩)

/-- Recursion worker for `getTile`.  The C++ function recurses with a
strictly smaller `tileCount` (for `tileCount ≥ 2`, both
`tileCount - tileCount / 2` and `tileCount / 2` are in
`[1, tileCount - 1]`), so a fuel of `tileCount` makes the recursion
structural without changing any value reached from `getTile`.  The C++
recursion diverges for `tileCount = 0` (no caller passes 0); the
fuel-exhaustion branch returns an error for that unreachable case. -/
def getTileGo (fuel tileIndex tileCount : Nat) (bounds : Bounds2i)
    (splitVertical : Bool) : Except String Bounds2i :=
  match fuel with
  | 0 => Except.error "getTile: tileCount is zero"
  | fuel + 1 =>
    if tileCount = 1 then
      Except.ok bounds
    else
      match splitBounds bounds splitVertical with
      | Except.error e => Except.error e
      | Except.ok (firstSplit, secondSplit) =>
        if tileIndex % 2 = 0 then
          getTileGo fuel (tileIndex / 2) (tileCount - tileCount / 2)
            firstSplit (!splitVertical)
        else
          getTileGo fuel (tileIndex / 2) (tileCount / 2)
            secondSplit (!splitVertical)

/-- `getTile(tileIndex, tileCount, bounds, splitVertical = true)`
(coordinator source): the bounds of tile `tileIndex` when `bounds` is
split into `tileCount` tiles, by recursive halving with even indices going
to the first half (`tileCount - tileCount / 2` tiles) and odd indices to
the second half (`tileCount / 2` tiles), alternating the split axis.
`Except.error` models the thrown `runtime_error`. -/
def getTile (tileIndex tileCount : Nat) (bounds : Bounds2i)
    (splitVertical : Bool := true) : Except String Bounds2i :=
  getTileGo tileCount tileIndex tileCount bounds splitVertical

/-- The concrete bounds used to witness the tile-partition theorem. -/
def tileWitnessBounds : Bounds2i := ⟨⟨0, 0⟩, ⟨4, 4⟩⟩

/-- Bounds on which the horizontal split's cross-axis guard fires
spuriously: both axes have length ≥ 10, yet `xMid = 10` collides with
`pMin.y = 10`. -/
def crossAxisBounds : Bounds2i := ⟨⟨0, 10⟩, ⟨20, 30⟩⟩

/-- Bounds whose x-axis has length 1: the horizontal split should fail per
the specification, but the cross-axis guard compares `xMid = 0` against the
y coordinates 5 and 37 and lets the split through. -/
def thinAxisBounds : Bounds2i := ⟨⟨0, 5⟩, ⟨1, 69⟩⟩

/-- `pbrt::Matrix4x4` (`core/transform.h`): sixteen `Float` entries
`m[i][j]`; the default constructor initializes the identity matrix. -/
structure Matrix4x4 where
  m00 : SFloat
  m01 : SFloat
  m02 : SFloat
  m03 : SFloat
  m10 : SFloat
  m11 : SFloat
  m12 : SFloat
  m13 : SFloat
  m20 : SFloat
  m21 : SFloat
  m22 : SFloat
  m23 : SFloat
  m30 : SFloat
  m31 : SFloat
  m32 : SFloat
  m33 : SFloat
deriving DecidableEq, Repr

/-- A `pbrt::Transform` as carried by a traversal frame: the codec
serializes only `transform->GetMatrix()` (the forward matrix) and rebuilds
the transform from that matrix on decode (the cached inverse is
recomputed), so a transform is represented by its forward matrix. -/
abbrev PbrtTransform := Matrix4x4

/-- `RayState::TreeletNode` (`cloud/raystate.h`, via its codec in
`messages/utils.cpp`): a traversal frame naming a treelet, a node index,
and an optional transform. -/
structure RayState.TreeletNode where
  treelet : Nat
  node : Nat
  transform : Option PbrtTransform
deriving DecidableEq, Repr

/-- `RayState::Sample`: the stable sample identity.  The fields written by
`LambdaWorker::generateRays` (`sample.id`, `sample.num`, `sample.pixel`,
`sample.pFilm`, `sample.weight`). -/
structure RayState.Sample where
  id : Nat
  num : Nat
  pixel : Point2i
  pFilm : Point2f
  weight : SFloat
deriving DecidableEq, Repr

/-- `pbrt::RayDifferential`: a ray (origin, direction, `tMax`, `time`)
plus optional differentials guarded by `hasDifferentials`; the default
constructor zero-initializes the differential members. -/
structure RayDifferential where
  o : Point3f
  d : Point3f
  tMax : SFloat
  time : SFloat
  hasDifferentials : Bool
  rxOrigin : Point3f
  ryOrigin : Point3f
  rxDirection : Point3f
  ryDirection : Point3f
deriving DecidableEq, Repr

/-- `pbrt::RGBSpectrum`: three `Float` coefficients; `0.f` converts to the
all-zero spectrum. -/
structure RGBSpectrum where
  c0 : SFloat
  c1 : SFloat
  c2 : SFloat
deriving DecidableEq, Repr

/-- The all-zero spectrum, the value of the C++ assignment `Ld = 0.f`. -/
def RGBSpectrum.zero : RGBSpectrum := ⟨0, 0, 0⟩

/-- `pbrt::RayState` (`cloud/raystate.h`): the serialized continuation of
an in-flight path sample.  Field list per the spec's data model and the
codec/`generateRays`/`handleRayQueue` accesses in the sources. -/
structure RayState where
  sample : RayState.Sample
  ray : RayDifferential
  toVisit : List RayState.TreeletNode
  hit : Option RayState.TreeletNode
  beta : RGBSpectrum
  Ld : RGBSpectrum
  bounces : Nat
  remainingBounces : Nat
  isShadowRay : Bool
deriving DecidableEq, Repr

/-- `protobuf::VisitNode`: `treelet`, `node`, optional `transform` whose
`protobuf::Matrix` payload is the repeated field `m` (a float list). -/
structure protobuf.VisitNode where
  treelet : Nat
  node : Nat
  transform : Option (List SFloat)
deriving DecidableEq, Repr

/-- `protobuf::RayDifferential`: `rx_origin` … `ry_direction` are message
fields that `to_protobuf` sets only when `hasDifferentials` holds;
`none` models an unset field. -/
structure protobuf.RayDifferential where
  o : Point3f
  d : Point3f
  tMax : SFloat
  time : SFloat
  hasDifferentials : Bool
  rxOrigin : Option Point3f
  ryOrigin : Option Point3f
  rxDirection : Option Point3f
  ryDirection : Option Point3f
deriving DecidableEq, Repr

/-- `protobuf::RayState`: note that it carries `sample_id`, `sample_num`
and `sample_pixel` but has no counterpart for `sample.pFilm` or
`sample.weight`. -/
structure protobuf.RayState where
  sampleId : Nat
  sampleNum : Nat
  samplePixel : Point2i
  ray : protobuf.RayDifferential
  toVisit : List protobuf.VisitNode
  hit : Option protobuf.VisitNode
  beta : List SFloat
  ld : List SFloat
  bounces : Nat
  remainingBounces : Nat
  isShadowRay : Bool
deriving DecidableEq, Repr

/-- `to_protobuf(const Matrix4x4 &)` (`messages/utils.cpp`): the sixteen
entries in row-major order. -/
def Matrix4x4.to_protobuf (m : Matrix4x4) : List SFloat :=
  [m.m00, m.m01, m.m02, m.m03, m.m10, m.m11, m.m12, m.m13,
   m.m20, m.m21, m.m22, m.m23, m.m30, m.m31, m.m32, m.m33]

/-- `from_protobuf(const protobuf::Matrix &)`: copies `m(4*i+j)` while
`4*i+j < m_size()` and leaves the remaining entries at their
default-constructed (identity) values. -/
def Matrix4x4.from_protobuf (l : List SFloat) : Matrix4x4 where
  m00 := l.getD 0 1
  m01 := l.getD 1 0
  m02 := l.getD 2 0
  m03 := l.getD 3 0
  m10 := l.getD 4 0
  m11 := l.getD 5 1
  m12 := l.getD 6 0
  m13 := l.getD 7 0
  m20 := l.getD 8 0
  m21 := l.getD 9 0
  m22 := l.getD 10 1
  m23 := l.getD 11 0
  m30 := l.getD 12 0
  m31 := l.getD 13 0
  m32 := l.getD 14 0
  m33 := l.getD 15 1

/-- `to_protobuf(const RGBSpectrum &)`: adds the three coefficients. -/
def RGBSpectrum.to_protobuf (s : RGBSpectrum) : List SFloat :=
  [s.c0, s.c1, s.c2]

/-- `from_protobuf(const protobuf::RGBSpectrum &)`:
`RGBSpectrum::FromRGB(c().data())` reads three coefficients. -/
def RGBSpectrum.from_protobuf (l : List SFloat) : RGBSpectrum :=
  ⟨l.getD 0 0, l.getD 1 0, l.getD 2 0⟩

/-- `to_protobuf(const RayState::TreeletNode &)`: `treelet`, `node`, and
the transform's matrix when the node carries one. -/
def RayState.TreeletNode.to_protobuf (n : RayState.TreeletNode) :
    protobuf.VisitNode :=
  ⟨n.treelet, n.node, n.transform.map Matrix4x4.to_protobuf⟩

/-- `from_protobuf(const protobuf::VisitNode &)`: rebuilds the transform
from its matrix when `has_transform()`. -/
def RayState.TreeletNode.from_protobuf (p : protobuf.VisitNode) :
    RayState.TreeletNode :=
  ⟨p.treelet, p.node, p.transform.map Matrix4x4.from_protobuf⟩

/-- `to_protobuf(const RayDifferential &)`: writes the differential
members only when `hasDifferentials` is set. -/
def RayDifferential.to_protobuf (r : RayDifferential) :
    protobuf.RayDifferential where
  o := r.o
  d := r.d
  tMax := r.tMax
  time := r.time
  hasDifferentials := r.hasDifferentials
  rxOrigin := if r.hasDifferentials then some r.rxOrigin else none
  ryOrigin := if r.hasDifferentials then some r.ryOrigin else none
  rxDirection := if r.hasDifferentials then some r.rxDirection else none
  ryDirection := if r.hasDifferentials then some r.ryDirection else none

/-- `from_protobuf(const protobuf::RayDifferential &)`: reads the
differential members only under `has_differentials()`; otherwise they keep
the zero values of the default-constructed `RayDifferential` (an unset
message field also reads back as the zero point). -/
def RayDifferential.from_protobuf (p : protobuf.RayDifferential) :
    RayDifferential where
  o := p.o
  d := p.d
  tMax := p.tMax
  time := p.time
  hasDifferentials := p.hasDifferentials
  rxOrigin := if p.hasDifferentials then p.rxOrigin.getD ⟨0, 0, 0⟩ else ⟨0, 0, 0⟩
  ryOrigin := if p.hasDifferentials then p.ryOrigin.getD ⟨0, 0, 0⟩ else ⟨0, 0, 0⟩
  rxDirection :=
    if p.hasDifferentials then p.rxDirection.getD ⟨0, 0, 0⟩ else ⟨0, 0, 0⟩
  ryDirection :=
    if p.hasDifferentials then p.ryDirection.getD ⟨0, 0, 0⟩ else ⟨0, 0, 0⟩

/-- `to_protobuf(const RayState &)` (`messages/utils.cpp`): serializes
`sample.id`, `sample.num`, `sample.pixel`, `ray`, `toVisit` (in order),
`hit` when initialized, `beta`, `Ld`, `bounces`, `remainingBounces` and
`isShadowRay` — and nothing else; in particular neither `sample.pFilm`
nor `sample.weight` is written. -/
def RayState.to_protobuf (s : RayState) : protobuf.RayState where
  sampleId := s.sample.id
  sampleNum := s.sample.num
  samplePixel := s.sample.pixel
  ray := s.ray.to_protobuf
  toVisit := s.toVisit.map RayState.TreeletNode.to_protobuf
  hit := s.hit.map RayState.TreeletNode.to_protobuf
  beta := s.beta.to_protobuf
  ld := s.Ld.to_protobuf
  bounces := s.bounces
  remainingBounces := s.remainingBounces
  isShadowRay := s.isShadowRay

/-- `from_protobuf(const protobuf::RayState &)`: fills every field that
the message carries; `sample.pFilm` and `sample.weight` are never read, so
the decoded `RayState state;` keeps their default-constructed values
(`cloud/raystate.h` is not among the sources; the zero default follows the
value-initialized members of the spec's data model). -/
def RayState.from_protobuf (p : protobuf.RayState) : RayState where
  sample :=
    { id := p.sampleId
      num := p.sampleNum
      pixel := p.samplePixel
      pFilm := ⟨0, 0⟩
      weight := 0 }
  ray := RayDifferential.from_protobuf p.ray
  toVisit := p.toVisit.map RayState.TreeletNode.from_protobuf
  hit := p.hit.map RayState.TreeletNode.from_protobuf
  beta := RGBSpectrum.from_protobuf p.beta
  Ld := RGBSpectrum.from_protobuf p.ld
  bounces := p.bounces
  remainingBounces := p.remainingBounces
  isShadowRay := p.isShadowRay

/-- The exact information loss of the codec: the round-trip resets
`sample.pFilm` and `sample.weight` to their defaults, and, when the ray
carries no differentials, also the four (unserialized) differential
members. -/
def RayState.clearUnserialized (s : RayState) : RayState :=
  { s with
    sample := { s.sample with pFilm := ⟨0, 0⟩, weight := 0 }
    ray :=
      if s.ray.hasDifferentials then s.ray
      else
        { s.ray with
          rxOrigin := ⟨0, 0, 0⟩
          ryOrigin := ⟨0, 0, 0⟩
          rxDirection := ⟨0, 0, 0⟩
          ryDirection := ⟨0, 0, 0⟩ } }

/-- A concrete ray state whose film-sample weight is 1; every other field
is zero/empty. -/
def weightOneRay : RayState where
  sample := { id := 0, num := 0, pixel := ⟨0, 0⟩, pFilm := ⟨0, 0⟩, weight := 1 }
  ray :=
    { o := ⟨0, 0, 0⟩, d := ⟨0, 0, 0⟩, tMax := 0, time := 0
      hasDifferentials := false
      rxOrigin := ⟨0, 0, 0⟩, ryOrigin := ⟨0, 0, 0⟩
      rxDirection := ⟨0, 0, 0⟩, ryDirection := ⟨0, 0, 0⟩ }
  toVisit := []
  hit := none
  beta := ⟨1, 1, 1⟩
  Ld := RGBSpectrum.zero
  bounces := 0
  remainingBounces := 0
  isShadowRay := false

/-- Destination of one ray in `LambdaWorker::handleRayQueue`'s per-ray
decision: pushed to `finishedQueue` (with or without a
`recordFinishedPath` increment of the finished-paths counter), appended to
the local `processedRays` batch for routing, replaced by the rays returned
by `Shade`, or the thrown `runtime_error("invalid ray in ray queue")`. -/
inductive RayStepResult where
  | finished (r : RayState) (countsFinishedPath : Bool)
  | processed (r : RayState)
  | shaded (rs : List RayState)
  | invalidRay
deriving DecidableEq, Repr

/-- The per-ray body of `LambdaWorker::handleRayQueue`
(`lambda-worker.cpp`): `trace` and `shade` stand for the external
collaborators `CloudIntegrator::Trace` and `CloudIntegrator::Shade`
(pure functions over ray state per the spec).  The final `dropped`-like
arm mirrors the source's trailing `else if (emptyVisit)`, whose guard is
provably true at that point; the fall-through is unreachable. -/
def handleRay (trace : RayState → RayState) (shade : RayState → List RayState)
    (ray : RayState) : RayStepResult :=
  if !ray.toVisit.isEmpty then
    let newRay := trace ray
    let hit := newRay.hit.isSome
    let emptyVisit := newRay.toVisit.isEmpty
    if newRay.isShadowRay then
      if hit || emptyVisit then
        RayStepResult.finished
          { newRay with Ld := if hit then RGBSpectrum.zero else newRay.Ld }
          false
      else
        RayStepResult.processed newRay
    else if !emptyVisit || hit then
      RayStepResult.processed newRay
    else if emptyVisit then
      RayStepResult.finished { newRay with Ld := RGBSpectrum.zero } true
    else
      RayStepResult.processed newRay
  else if ray.hit.isSome then
    RayStepResult.shaded (shade ray)
  else
    RayStepResult.invalidRay

/-- A shadow ray with one traversal frame and a recorded hit, used to
witness the finish rules. -/
def shadowHitRay : RayState where
  sample := { id := 3, num := 0, pixel := ⟨1, 1⟩, pFilm := ⟨0, 0⟩, weight := 0 }
  ray :=
    { o := ⟨0, 0, 0⟩, d := ⟨0, 0, 0⟩, tMax := 0, time := 0
      hasDifferentials := false
      rxOrigin := ⟨0, 0, 0⟩, ryOrigin := ⟨0, 0, 0⟩
      rxDirection := ⟨0, 0, 0⟩, ryDirection := ⟨0, 0, 0⟩ }
  toVisit := [⟨1, 0, none⟩]
  hit := some ⟨2, 0, none⟩
  beta := ⟨1, 1, 1⟩
  Ld := ⟨5, 5, 5⟩
  bounces := 1
  remainingBounces := 3
  isShadowRay := true

/-- A ray with neither traversal frames nor a hit: the protocol-violation
input of the ray queue. -/
def invalidQueueRay : RayState where
  sample := { id := 9, num := 0, pixel := ⟨0, 0⟩, pFilm := ⟨0, 0⟩, weight := 0 }
  ray :=
    { o := ⟨0, 0, 0⟩, d := ⟨0, 0, 0⟩, tMax := 0, time := 0
      hasDifferentials := false
      rxOrigin := ⟨0, 0, 0⟩, ryOrigin := ⟨0, 0, 0⟩
      rxDirection := ⟨0, 0, 0⟩, ryDirection := ⟨0, 0, 0⟩ }
  toVisit := []
  hit := none
  beta := ⟨1, 1, 1⟩
  Ld := RGBSpectrum.zero
  bounces := 0
  remainingBounces := 0
  isShadowRay := false

/-- `RayState::currentTreelet()`.  Modelled from the spec:
`cloud/raystate.h` is not among the sources; the spec's routing rule is
“top of `toVisit` or the hit's treelet”, and `handleRayQueue` reads the
top of `toVisit` as `toVisit.back()`. -/
def RayState.currentTreelet (r : RayState) : Nat :=
  match r.toVisit.getLast? with
  | some n => n.treelet
  | none =>
    match r.hit with
    | some h => h.treelet
    | none => 0

/-- Pointwise update of a function-represented map.  `std::map` entries
holding an empty list/deque are identified with absent keys: every place
the worker consults `map.count(k)` (`treeletToWorker`, `pendingQueue`),
a key is only ever created together with a pushed element, and the drain
of a `pendingQueue` entry empties it. -/
def updF (f : Nat → List α) (k : Nat) (v : List α) : Nat → List α :=
  fun k' => if k' = k then v else f k'

/-- The queue-routing state owned by a `LambdaWorker` (the fields of
`lambda-worker.h` that `handleRayQueue` and the `ConnectionResponse`
handler touch). -/
structure WorkerEngineState where
  treeletIds : List Nat
  treeletToWorker : Nat → List Nat
  outQueue : Nat → List RayState
  pendingQueue : Nat → List RayState
  rayQueue : List RayState
  neededTreelets : List Nat
  requestedTreelets : List Nat

/-- The routing loop body of `LambdaWorker::handleRayQueue` for one
processed ray: locally held treelet → `rayQueue`; a known holder →
`outQueue[nextTreelet]`; otherwise → `pendingQueue[nextTreelet]` plus
`neededTreelets`. -/
def routeRay (s : WorkerEngineState) (ray : RayState) : WorkerEngineState :=
  let nextTreelet := ray.currentTreelet
  if s.treeletIds.contains nextTreelet then
    { s with rayQueue := s.rayQueue ++ [ray] }
  else if s.treeletToWorker nextTreelet ≠ [] then
    { s with
      outQueue :=
        updF s.outQueue nextTreelet (s.outQueue nextTreelet ++ [ray]) }
  else
    { s with
      neededTreelets := s.neededTreelets.insert nextTreelet
      pendingQueue :=
        updF s.pendingQueue nextTreelet (s.pendingQueue nextTreelet ++ [ray]) }

/-- One iteration of the `ConnectionResponse` treelet loop
(`LambdaWorker::processMessage`): record the responder as a holder of
`t`, drop `t` from `requestedTreelets`, and drain `pendingQueue[t]` into
`outQueue[t]`. -/
def addTreeletHolder (otherWorkerId : Nat) (s : WorkerEngineState) (t : Nat) :
    WorkerEngineState :=
  let s1 :=
    { s with
      treeletToWorker :=
        updF s.treeletToWorker t (s.treeletToWorker t ++ [otherWorkerId])
      requestedTreelets := s.requestedTreelets.erase t }
  { s1 with
    outQueue := updF s1.outQueue t (s1.outQueue t ++ s1.pendingQueue t)
    pendingQueue := updF s1.pendingQueue t [] }

/-- The queue effects of processing a `ConnectionResponse` whose seed
check succeeded: every treelet id of the response is added as held by the
responding worker and its pending rays move to the out queue. -/
def processConnectionResponse (s : WorkerEngineState) (otherWorkerId : Nat)
    (treelets : List Nat) : WorkerEngineState :=
  treelets.foldl (addTreeletHolder otherWorkerId) s

/-- Worker-engine state right after construction: every queue and map is
empty; the initially held treelet ids arrive with `GetObjects`. -/
def initWorkerEngineState (tids : List Nat) : WorkerEngineState where
  treeletIds := tids
  treeletToWorker := fun _ => []
  outQueue := fun _ => []
  pendingQueue := fun _ => []
  rayQueue := []
  neededTreelets := []
  requestedTreelets := []

/-- The steps of the worker's event loop that touch the routing state:
routing one processed ray, the treelet loop of a seed-validated
`ConnectionResponse`, draining the out queue (`handleOutQueue` empties
every entry it visits), and learning additional held treelet ids from a
`GetObjects` message. -/
inductive WStep : WorkerEngineState → WorkerEngineState → Prop where
  | route (s : WorkerEngineState) (ray : RayState) : WStep s (routeRay s ray)
  | connResp (s : WorkerEngineState) (wid : Nat) (treelets : List Nat) :
      WStep s (processConnectionResponse s wid treelets)
  | flushOut (s : WorkerEngineState) :
      WStep s { s with outQueue := fun _ => [] }
  | getObjects (s : WorkerEngineState) (tids : List Nat) :
      WStep s { s with treeletIds := s.treeletIds ++ tids }

/-- Worker-engine states reachable from a fresh worker. -/
inductive ReachableW : WorkerEngineState → Prop where
  | init (tids : List Nat) : ReachableW (initWorkerEngineState tids)
  | step {s s' : WorkerEngineState} :
      ReachableW s → WStep s s' → ReachableW s'

/-- The routing invariant of **C5**: a treelet with queued outbound rays
has a known holder, and a treelet with pending rays has none. -/
def WQInv (s : WorkerEngineState) : Prop :=
  (∀ t, s.outQueue t ≠ [] → s.treeletToWorker t ≠ []) ∧
  (∀ t, s.pendingQueue t ≠ [] → s.treeletToWorker t = [])

/-- `Worker::State` of the worker-side peer table (`lambda-worker.h`, per
the spec's peer record): a peer is `Connecting` from creation until the
seed-validated `ConnectionResponse` arrives. -/
inductive PeerState where
  | Connecting
  | Connected
deriving DecidableEq, Repr

/-- A worker-side peer record: connection state, last seed heard from the
peer, and the retry counter incremented by the periodic upkeep. -/
structure Peer where
  state : PeerState
  seed : Nat
  tries : Nat
deriving DecidableEq, Repr

/-- The peer-table events that touch a peer's record:
`connectionResponse ms ys` is a `ConnectionResponse{my_seed = ms,
your_seed = ys}` for this peer (`LambdaWorker::processMessage`), and
`upkeepTick` is one pass of `LambdaWorker::handlePeers`, which sends a
`ConnectionRequest` and bumps `tries` for a `Connecting` peer and only
keep-alives a `Connected` one. -/
inductive PeerEvent where
  | connectionResponse (ms ys : Nat)
  | upkeepTick
deriving DecidableEq, Repr

/-- Transition of one peer record.  On a `ConnectionResponse` the handler
first stores `my_seed`, then promotes the peer to `Connected` only when it
is not yet connected and the echoed `your_seed` equals the worker's own
`mySeed`.  These are the only writes to `peer.state` and `peer.tries` in
the worker sources. -/
def peerStep (mySeed : Nat) (p : Peer) : PeerEvent → Peer
  | PeerEvent.connectionResponse ms ys =>
    let p1 := { p with seed := ms }
    if p1.state ≠ PeerState.Connected ∧ ys = mySeed then
      { p1 with state := PeerState.Connected }
    else
      p1
  | PeerEvent.upkeepTick =>
    match p.state with
    | PeerState.Connecting => { p with tries := p.tries + 1 }
    | PeerState.Connected => p

/-- A concrete connecting peer used to witness the FSM properties. -/
def connectingPeer : Peer := ⟨PeerState.Connecting, 42, 0⟩

/-- `UDP_MTU_BYTES` (`lambda-worker.cpp`): the 1400-byte datagram
budget. -/
def UDP_MTU_BYTES : Nat := 1400

/-- The inner packing loop of `LambdaWorker::handleOutQueue`, over the
serialized byte lengths of the queued rays (nothing else about a ray
matters to packing).  Starting from the running `packetLen` (initially 5,
the message header), it pops rays while `packetLen < UDP_MTU_BYTES`:
a ray whose framed length `rayStr.length() + 4` would push `packetLen`
past the budget is held (`unpackedRay`) for the next datagram; otherwise
it is written and accounted.  Returns (written records, held ray,
remaining queue). -/
def fillPacket (packetLen : Nat) (queue : List Nat) :
    List Nat × Option Nat × List Nat :=
  match queue with
  | [] => ([], none, [])
  | r :: rest =>
    if packetLen < UDP_MTU_BYTES then
      let len := r + 4
      if len + packetLen > UDP_MTU_BYTES then
        ([], some r, rest)
      else
        let res := fillPacket (packetLen + len) rest
        (r :: res.1, res.2.1, res.2.2)
    else
      ([], none, queue)

/-- The outer datagram loop of `handleOutQueue` for one `outQueue` entry:
while rays remain queued or held, emit one datagram whose record list is
the held ray (written unconditionally, *without* adding its length to
`packetLen`, exactly as in the source) followed by what `fillPacket`
packs.  Each iteration consumes at least one queued ray or clears the
held one, so `2 * queue.length + 1` fuel strictly bounds the number of
iterations; the fuel only makes the recursion structural. -/
def packLoop : Nat → Option Nat → List Nat → List (List Nat)
  | 0, _, _ => []
  | fuel + 1, held, queue =>
    if held = none ∧ queue = [] then
      []
    else
      let res := fillPacket 5 queue
      (held.toList ++ res.1) :: packLoop fuel res.2.1 res.2.2

/-- All `SendRays` datagrams sent for one non-empty `outQueue` entry, as
lists of framed ray records (identified by their serialized lengths). -/
def handleOutQueuePack (queue : List Nat) : List (List Nat) :=
  packLoop (2 * queue.length + 1) none queue

/-- The payload size of a `SendRays` datagram: each record contributes its
4-byte length prefix plus its bytes (`RecordWriter` framing). -/
def payloadSize (records : List Nat) : Nat :=
  records.foldl (fun acc r => acc + (4 + r)) 0

/-- The coordinator state consulted by `LambdaMaster::handleWorkerRequests`
and `processWorkerRequest`: the launch count (`numberOfLambdas`), the
number of workers whose UDP address has been learned
(`initializedWorkers.size()`), per-worker UDP-address presence
(`worker.udpAddress.initialized()`), per-treelet holder lists
(`sceneObjects.at({Treelet, t}).workers`), and the pending
`WorkerRequest{worker, treelet}` deque. -/
structure MasterState where
  numberOfLambdas : Nat
  readyWorkerCount : Nat
  udpKnown : Nat → Bool
  holders : Nat → List Nat
  pending : List (Nat × Nat)

/-- `LambdaMaster::processWorkerRequest` for one request, with the random
holder selection (`random::sample`) abstracted as `choose`: no holder →
`false` (re-queue); otherwise `connectWorkers(worker, selected)`, which
re-queues unless both UDP addresses are known, and on success enqueues the
mutual `ConnectTo` messages — represented as `(recipient, subject)`
pairs: the requester gets a `ConnectTo` naming the selected holder and the
selected holder one naming the requester. -/
def processWorkerRequest (s : MasterState) (choose : List Nat → Nat)
    (req : Nat × Nat) : Option (List (Nat × Nat)) :=
  if s.holders req.2 = [] then
    none
  else
    let sel := choose (s.holders req.2)
    if s.udpKnown req.1 then
      if s.udpKnown sel then
        some [(req.1, sel), (sel, req.1)]
      else
        none
    else
      none

/-- Whether a pending request is served (rather than re-queued) by the
current batch: its treelet has a holder and both endpoints have known UDP
addresses. -/
def requestServed (s : MasterState) (choose : List Nat → Nat)
    (req : Nat × Nat) : Bool :=
  !(s.holders req.2).isEmpty && s.udpKnown req.1 &&
    s.udpKnown (choose (s.holders req.2))

/-- The `ConnectTo` pair sent for a served request. -/
def connectToPair (s : MasterState) (choose : List Nat → Nat)
    (req : Nat × Nat) : List (Nat × Nat) :=
  [(req.1, choose (s.holders req.2)), (choose (s.holders req.2), req.1)]

/-- `LambdaMaster::handleWorkerRequests`: below the 90 % threshold
(`initializedWorkers.size() < numberOfLambdas * 0.90`, an integer-exact
comparison rendered as `10 * ready < 9 * total`) nothing is processed;
otherwise every pending request is popped, processed against the current
state, and re-queued in order when `processWorkerRequest` fails.  Returns
the new state and the `ConnectTo` messages sent. -/
def handleWorkerRequests (s : MasterState) (choose : List Nat → Nat) :
    MasterState × List (Nat × Nat) :=
  if 10 * s.readyWorkerCount < 9 * s.numberOfLambdas then
    (s, [])
  else
    let res := s.pending.foldl
      (fun acc req =>
        match processWorkerRequest s choose req with
        | none => (acc.1 ++ [req], acc.2)
        | some ms => (acc.1, acc.2 ++ ms))
      ([], [])
    ({ s with pending := res.1 }, res.2)

/-- Holder selection used in the concrete scenarios: the first holder. -/
def chooseHead (l : List Nat) : Nat := l.headD 0

/-- A coordinator state with 10 launched workers of which 9 are
initialized (so the batch runs), where treelet 7 is held by worker 2 but
the requester, worker 1, has not yet bound its UDP address. -/
def missingAddressState : MasterState where
  numberOfLambdas := 10
  readyWorkerCount := 9
  udpKnown := fun w => w != 1
  holders := fun t => if t = 7 then [2] else []
  pending := [(1, 7)]

/-- `SceneManager::Type` of a scene object (the kinds enumerated by the
spec's data model). -/
inductive ObjectType where
  | Scene
  | Camera
  | Sampler
  | Lights
  | Treelet
  | Material
  | Texture
  | TriangleMesh
deriving DecidableEq, Repr

/-- `SceneManager::ObjectKey`: a tagged `(type, id)` scene-object key. -/
structure ObjectKey where
  type : ObjectType
  id : Nat
deriving DecidableEq, Repr

/-- `SceneObjectInfo` (coordinator side): the object's byte size and the
set of workers currently holding it, kept as a duplicate-free list. -/
structure SceneObjectInfo where
  size : Nat
  workers : List Nat
deriving DecidableEq, Repr

/-- The coordinator's per-worker record as touched by `assignObject`:
the worker id, the assigned object set (duplicate-free list standing for
`std::set<ObjectKey>`), and the residual space budget.  The header
declaring the record is not among the sources; the fields follow the
spec's worker record ("residual free space … debited by assignments"),
with the debit on `Nat`. -/
structure Worker where
  id : Nat
  objects : List ObjectKey
  freeSpace : Nat
deriving DecidableEq, Repr

/-- `LambdaMaster::assignObject`: only when the worker does not already
hold `object` does it record the worker as a holder, add the object to
the worker's set, and debit `freeSpace` by the object's size.  The
`sceneObjects` table is threaded explicitly. -/
def assignObject (sceneObjects : ObjectKey → SceneObjectInfo)
    (worker : Worker) (object : ObjectKey) :
    Worker × (ObjectKey → SceneObjectInfo) :=
  if object ∈ worker.objects then
    (worker, sceneObjects)
  else
    let info := sceneObjects object
    ({ worker with
        objects := worker.objects.insert object
        freeSpace := worker.freeSpace - info.size },
     fun k =>
       if k = object then { info with workers := info.workers.insert worker.id }
       else sceneObjects k)

/-- `LambdaMaster::assignTreelet`: assigns the treelet object itself and
then every object in its flattened dependency list
(`treeletFlattenDependencies`). -/
def assignTreelet (deps : Nat → List ObjectKey)
    (sceneObjects : ObjectKey → SceneObjectInfo) (worker : Worker)
    (treeletId : Nat) : Worker × (ObjectKey → SceneObjectInfo) :=
  let res := assignObject sceneObjects worker ⟨ObjectType.Treelet, treeletId⟩
  (deps treeletId).foldl (fun acc obj => assignObject acc.2 acc.1 obj) res

/-- A concrete worker already holding treelet 0, used as the idempotence
witness. -/
def holderWorker : Worker := ⟨1, [⟨ObjectType.Treelet, 0⟩], 100⟩

/-- A concrete scene-object table: every object has size 10 and no
holders. -/
def flatScene : ObjectKey → SceneObjectInfo := fun _ => ⟨10, []⟩

theorem tdiv2_between (m : Int) :
    m - 1 ≤ 2 * Int.tdiv m 2 ∧ 2 * Int.tdiv m 2 ≤ m + 1 := by
  rcases m with n | n
  · have h : Int.tdiv (Int.ofNat n) 2 = Int.ofNat (n / 2) := rfl
    have h2 : (Int.ofNat n : Int) = (n : Int) := rfl
    have h3 : (Int.ofNat (n / 2) : Int) = ((n / 2 : Nat) : Int) := rfl
    rw [h, h2, h3]
    omega
  · have h : Int.tdiv (Int.negSucc n) 2 = -(Int.ofNat ((n + 1) / 2)) := rfl
    have h3 : (Int.ofNat ((n + 1) / 2) : Int) = (((n + 1) / 2 : Nat) : Int) := rfl
    rw [h, Int.negSucc_eq, h3]
    omega

/-- A successful split partitions the pixel set of `b`: each pixel of `b`
is in exactly one of the two halves, and the halves are disjoint. -/
theorem splitBounds_partition (b : Bounds2i) (sv : Bool) (fs ss : Bounds2i)
    (h : splitBounds b sv = Except.ok (fs, ss)) (p : Point2i) :
    (insideExclusive p b = true ↔
      (insideExclusive p fs = true ∨ insideExclusive p ss = true)) ∧
    ¬(insideExclusive p fs = true ∧ insideExclusive p ss = true) := by
  cases sv with
  | true =>
    simp only [splitBounds] at h
    by_cases hg : Int.tdiv (b.pMax.y + b.pMin.y) 2 = b.pMin.y ∨
        Int.tdiv (b.pMax.y + b.pMin.y) 2 = b.pMax.y
    · simp [splitBounds, hg] at h
    · simp [splitBounds, hg] at h
      obtain ⟨hfs, hss⟩ := h
      have hd := tdiv2_between (b.pMax.y + b.pMin.y)
      subst hfs hss
      simp only [insideExclusive, Bool.and_eq_true, decide_eq_true_eq]
      constructor
      · constructor
        · rintro ⟨⟨⟨h1, h2⟩, h3⟩, h4⟩
          rcases lt_or_le p.y (Int.tdiv (b.pMax.y + b.pMin.y) 2) with hy | hy
          · exact Or.inl ⟨⟨⟨h1, h2⟩, h3⟩, hy⟩
          · exact Or.inr ⟨⟨⟨h1, h2⟩, hy⟩, h4⟩
        · rintro (⟨⟨⟨h1, h2⟩, h3⟩, h4⟩ | ⟨⟨⟨h1, h2⟩, h3⟩, h4⟩) <;>
            refine ⟨⟨⟨h1, h2⟩, ?_⟩, ?_⟩ <;> omega
      · rintro ⟨⟨⟨⟨_, _⟩, _⟩, h4⟩, ⟨⟨⟨_, _⟩, h3'⟩, _⟩⟩
        omega
  | false =>
    simp only [splitBounds] at h
    by_cases hg : Int.tdiv (b.pMax.x + b.pMin.x) 2 = b.pMin.y ∨
        Int.tdiv (b.pMax.x + b.pMin.x) 2 = b.pMax.y
    · simp [splitBounds, hg] at h
    · simp [splitBounds, hg] at h
      obtain ⟨hfs, hss⟩ := h
      have hd := tdiv2_between (b.pMax.x + b.pMin.x)
      subst hfs hss
      simp only [insideExclusive, Bool.and_eq_true, decide_eq_true_eq]
      constructor
      · constructor
        · rintro ⟨⟨⟨h1, h2⟩, h3⟩, h4⟩
          rcases lt_or_le p.x (Int.tdiv (b.pMax.x + b.pMin.x) 2) with hx | hx
          · exact Or.inl ⟨⟨⟨h1, hx⟩, h3⟩, h4⟩
          · exact Or.inr ⟨⟨⟨hx, h2⟩, h3⟩, h4⟩
        · rintro (⟨⟨⟨h1, h2⟩, h3⟩, h4⟩ | ⟨⟨⟨h1, h2⟩, h3⟩, h4⟩) <;>
            refine ⟨⟨⟨?_, ?_⟩, h3⟩, h4⟩ <;> omega
      · rintro ⟨⟨⟨⟨_, h2⟩, _⟩, _⟩, ⟨⟨⟨h1', _⟩, _⟩, _⟩⟩
        omega

/-- Partition property of the tile recursion, by induction on the fuel:
whenever every index below `n` yields a tile successfully, those tiles are
pairwise disjoint and their union is exactly the input bounds. -/
theorem getTileGo_partition :
    ∀ fuel n b sv, 1 ≤ n → n ≤ fuel →
    (∀ i, i < n → (getTileGo fuel i n b sv).isOk = true) →
    ((∀ p, insideExclusive p b = true ↔
        ∃ i, i < n ∧ ∃ t, getTileGo fuel i n b sv = Except.ok t ∧
          insideExclusive p t = true) ∧
     (∀ i j ti tj, i < j → j < n →
        getTileGo fuel i n b sv = Except.ok ti →
        getTileGo fuel j n b sv = Except.ok tj →
        ∀ p, ¬(insideExclusive p ti = true ∧ insideExclusive p tj = true))) := by
  intro fuel
  induction fuel with
  | zero => intro n b sv h1 h2 _; omega
  | succ fuel ih =>
    intro n b sv hn hnf hok
    by_cases hn1 : n = 1
    · subst hn1
      constructor
      · intro p
        constructor
        · intro hp
          exact ⟨0, by omega, b, by simp [getTileGo], hp⟩
        · rintro ⟨i, hi, t, ht, hp⟩
          simp [getTileGo] at ht
          subst ht
          exact hp
      · intro i j ti tj hij hj
        omega
    · have hok0 := hok 0 (by omega)
      rcases hsp : splitBounds b sv with e | ⟨fs, ss⟩
      · simp [getTileGo, hn1, hsp, Except.isOk, Except.toBool] at hok0
      · have hstep : ∀ i, getTileGo (fuel + 1) i n b sv =
            if i % 2 = 0 then
              getTileGo fuel (i / 2) (n - n / 2) fs (!sv)
            else
              getTileGo fuel (i / 2) (n / 2) ss (!sv) := by
          intro i
          simp [getTileGo, hn1, hsp]
        have hok1 : ∀ j, j < n - n / 2 →
            (getTileGo fuel j (n - n / 2) fs (!sv)).isOk = true := by
          intro j hj
          have h2j : 2 * j < n := by omega
          have hj2 := hok (2 * j) h2j
          rw [hstep (2 * j)] at hj2
          have e1 : 2 * j % 2 = 0 := by omega
          have e2 : 2 * j / 2 = j := by omega
          simpa [e1, e2] using hj2
        have hok2 : ∀ j, j < n / 2 →
            (getTileGo fuel j (n / 2) ss (!sv)).isOk = true := by
          intro j hj
          have h2j : 2 * j + 1 < n := by omega
          have hj2 := hok (2 * j + 1) h2j
          rw [hstep (2 * j + 1)] at hj2
          have e1 : ¬((2 * j + 1) % 2 = 0) := by omega
          have e2 : (2 * j + 1) / 2 = j := by omega
          simpa [e1, e2] using hj2
        have IH1 := ih (n - n / 2) fs (!sv) (by omega) (by omega) hok1
        have IH2 := ih (n / 2) ss (!sv) (by omega) (by omega) hok2
        have hsplit := fun p => splitBounds_partition b sv fs ss hsp p
        constructor
        · intro p
          constructor
          · intro hp
            rcases (hsplit p).1.mp hp with hf | hs
            · obtain ⟨j, hj, t, ht, hpt⟩ := (IH1.1 p).mp hf
              refine ⟨2 * j, by omega, t, ?_, hpt⟩
              rw [hstep (2 * j)]
              have e1 : 2 * j % 2 = 0 := by omega
              have e2 : 2 * j / 2 = j := by omega
              simpa [e1, e2] using ht
            · obtain ⟨j, hj, t, ht, hpt⟩ := (IH2.1 p).mp hs
              refine ⟨2 * j + 1, by omega, t, ?_, hpt⟩
              rw [hstep (2 * j + 1)]
              have e1 : ¬((2 * j + 1) % 2 = 0) := by omega
              have e2 : (2 * j + 1) / 2 = j := by omega
              simpa [e1, e2] using ht
          · rintro ⟨i, hi, t, ht, hpt⟩
            rw [hstep i] at ht
            by_cases hpar : i % 2 = 0
            · simp only [hpar, if_pos, if_true] at ht
              have hidx : i / 2 < n - n / 2 := by omega
              have hf : insideExclusive p fs = true :=
                (IH1.1 p).mpr ⟨i / 2, hidx, t, ht, hpt⟩
              exact (hsplit p).1.mpr (Or.inl hf)
            · simp only [hpar, if_neg, if_false] at ht
              have hidx : i / 2 < n / 2 := by omega
              have hs : insideExclusive p ss = true :=
                (IH2.1 p).mpr ⟨i / 2, hidx, t, ht, hpt⟩
              exact (hsplit p).1.mpr (Or.inr hs)
        · intro i j ti tj hij hj hti htj p
          rintro ⟨hpti, hptj⟩
          rw [hstep i] at hti
          rw [hstep j] at htj
          by_cases hpi : i % 2 = 0 <;> by_cases hpj : j % 2 = 0
          · simp only [hpi, if_true] at hti
            simp only [hpj, if_true] at htj
            have hlt : i / 2 < j / 2 := by omega
            exact IH1.2 (i / 2) (j / 2) ti tj hlt (by omega) hti htj p
              ⟨hpti, hptj⟩
          · simp only [hpi, if_true] at hti
            simp only [hpj, if_false] at htj
            have hf : insideExclusive p fs = true :=
              (IH1.1 p).mpr ⟨i / 2, by omega, ti, hti, hpti⟩
            have hs : insideExclusive p ss = true :=
              (IH2.1 p).mpr ⟨j / 2, by omega, tj, htj, hptj⟩
            exact (hsplit p).2 ⟨hf, hs⟩
          · simp only [hpi, if_false] at hti
            simp only [hpj, if_true] at htj
            have hf : insideExclusive p fs = true :=
              (IH1.1 p).mpr ⟨j / 2, by omega, tj, htj, hptj⟩
            have hs : insideExclusive p ss = true :=
              (IH2.1 p).mpr ⟨i / 2, by omega, ti, hti, hpti⟩
            exact (hsplit p).2 ⟨hf, hs⟩
          · simp only [hpi, if_false] at hti
            simp only [hpj, if_false] at htj
            have hlt : i / 2 < j / 2 := by omega
            exact IH2.2 (i / 2) (j / 2) ti tj hlt (by omega) hti htj p
              ⟨hpti, hptj⟩

/-- **C1**: for every `Bounds2i` `B` and tile count `n ≥ 1` whose recursive
splitting succeeds for every index (no split fails), the tiles
`getTile i n B` for `i ∈ [0, n)` are pairwise disjoint and their union is
exactly the pixel set of `B`. -/
theorem getTile_tiles_partition (n : Nat) (B : Bounds2i) (hn : 1 ≤ n)
    (hok : ∀ i, i < n → (getTile i n B true).isOk = true) :
    (∀ p, insideExclusive p B = true ↔
       ∃ i, i < n ∧ ∃ t, getTile i n B true = Except.ok t ∧
         insideExclusive p t = true) ∧
    (∀ i j ti tj, i < j → j < n →
       getTile i n B true = Except.ok ti →
       getTile j n B true = Except.ok tj →
       ∀ p, ¬(insideExclusive p ti = true ∧ insideExclusive p tj = true)) :=
  getTileGo_partition n n B true hn (Nat.le_refl n) hok

/-- Witness for `getTile_tiles_partition`: its hypotheses hold and it
applies at `n = 2` on the concrete bounds `(0,0)–(4,4)`. -/
theorem getTile_tiles_partition_witness :
    ((1 ≤ 2 ∧ ∀ i, i < 2 →
        (getTile i 2 tileWitnessBounds true).isOk = true) ∧
     ((∀ p, insideExclusive p tileWitnessBounds = true ↔
        ∃ i, i < 2 ∧ ∃ t, getTile i 2 tileWitnessBounds true = Except.ok t ∧
          insideExclusive p t = true) ∧
      (∀ i j ti tj, i < j → j < 2 →
        getTile i 2 tileWitnessBounds true = Except.ok ti →
        getTile j 2 tileWitnessBounds true = Except.ok tj →
        ∀ p, ¬(insideExclusive p ti = true ∧ insideExclusive p tj = true)))) :=
  ⟨⟨by decide, by decide⟩,
   getTile_tiles_partition 2 tileWitnessBounds (by decide) (by decide)⟩

/-- **C2** (code bug): the guard of the horizontal split compares `xMid`
against the *y* coordinates of the rectangle.  Consequently `getTile`
(1) throws for `(0,10)–(20,30)` although no axis of length 1 is ever
halved (both axes of every rectangle reached have length ≥ 10), and
(2) silently halves the length-1 x-axis of `(0,5)–(1,69)`, returning the
empty rectangle `(0,5)–(0,37)` instead of throwing. -/
theorem getTile_crossAxis_guard_bug :
    getTile 0 4 crossAxisBounds true =
      Except.error "Tried to split a rectangle across an axis of length 1" ∧
    getTile 0 4 thinAxisBounds true = Except.ok ⟨⟨0, 5⟩, ⟨0, 37⟩⟩ :=
  ⟨rfl, rfl⟩

theorem matrix_roundtrip (m : Matrix4x4) :
    Matrix4x4.from_protobuf (Matrix4x4.to_protobuf m) = m := rfl

theorem visitNode_roundtrip (n : RayState.TreeletNode) :
    RayState.TreeletNode.from_protobuf (RayState.TreeletNode.to_protobuf n)
      = n := by
  cases n with
  | mk treelet node transform =>
    cases transform with
    | none => rfl
    | some m =>
      simp [RayState.TreeletNode.to_protobuf,
        RayState.TreeletNode.from_protobuf, matrix_roundtrip]

theorem spectrum_roundtrip (s : RGBSpectrum) :
    RGBSpectrum.from_protobuf (RGBSpectrum.to_protobuf s) = s := rfl

theorem rayDifferential_roundtrip (r : RayDifferential) :
    RayDifferential.from_protobuf (RayDifferential.to_protobuf r) =
      (if r.hasDifferentials then r
       else
        { r with
          rxOrigin := ⟨0, 0, 0⟩
          ryOrigin := ⟨0, 0, 0⟩
          rxDirection := ⟨0, 0, 0⟩
          ryDirection := ⟨0, 0, 0⟩ }) := by
  cases r with
  | mk o d tMax time hasDifferentials rxO ryO rxD ryD =>
    cases hasDifferentials <;>
      simp [RayDifferential.to_protobuf, RayDifferential.from_protobuf]

/-- **C3** (amended): decoding the encoding of a ray state restores every
serialized field — `sample.id`, `sample.num`, `sample.pixel`, `ray` (up to
unset differentials), `toVisit`, `hit`, `beta`, `Ld`, `bounces`,
`remainingBounces`, `isShadowRay` — while `sample.pFilm` and
`sample.weight`, which the codec never writes, come back as defaults. -/
theorem rayState_roundtrip (s : RayState) :
    RayState.from_protobuf (RayState.to_protobuf s) =
      RayState.clearUnserialized s := by
  cases s with
  | mk sample ray toVisit hit beta ld bounces remainingBounces isShadowRay =>
    cases sample
    simp [RayState.to_protobuf, RayState.from_protobuf,
      RayState.clearUnserialized, rayDifferential_roundtrip,
      spectrum_roundtrip, List.map_map, Function.comp,
      visitNode_roundtrip, Option.map_map]
    have hcomp : RayState.TreeletNode.from_protobuf ∘
        RayState.TreeletNode.to_protobuf = id := funext visitNode_roundtrip
    simp [hcomp]

/-- **C3** (counterexample): on a ray state with `sample.weight = 1` the
round-trip does not restore the ray state — the decoded weight is the
default 0. -/
theorem rayState_roundtrip_counterexample :
    RayState.from_protobuf (RayState.to_protobuf weightOneRay)
      ≠ weightOneRay := by decide

/-- **C4**: in the worker's main ray-processing step, a traced shadow ray
that found a hit or exhausted `toVisit` is finished with `Ld` zeroed
exactly when a hit was found; a traced non-shadow ray with empty `toVisit`
and no hit is finished with `Ld` zeroed and the finished-paths counter
incremented. -/
theorem handleRayQueue_finish_rules (trace : RayState → RayState)
    (shade : RayState → List RayState) (ray : RayState)
    (hv : ray.toVisit ≠ []) :
    ((trace ray).isShadowRay = true →
      ((trace ray).hit.isSome = true ∨ (trace ray).toVisit = []) →
      handleRay trace shade ray =
        RayStepResult.finished
          { trace ray with
            Ld := if (trace ray).hit.isSome then RGBSpectrum.zero
                  else (trace ray).Ld }
          false) ∧
    ((trace ray).isShadowRay = false → (trace ray).toVisit = [] →
      (trace ray).hit = none →
      handleRay trace shade ray =
        RayStepResult.finished { trace ray with Ld := RGBSpectrum.zero }
          true) := by
  have hne : ray.toVisit.isEmpty = false := by
    cases h : ray.toVisit with
    | nil => exact absurd h hv
    | cons a l => simp
  constructor
  · intro hsh hfin
    rcases hfin with hhit | hemp
    · simp [handleRay, hne, hsh, hhit]
    · have hemp' : (trace ray).toVisit.isEmpty = true := by simp [hemp]
      simp [handleRay, hne, hsh, hemp']
  · intro hsh hemp hnone
    have hemp' : (trace ray).toVisit.isEmpty = true := by simp [hemp]
    simp [handleRay, hne, hsh, hemp', hnone]

/-- Witness for `handleRayQueue_finish_rules` at the concrete shadow ray
`shadowHitRay` with `trace = id`: the hypotheses hold and the ray is
finished with `Ld` zeroed and no finished-path increment. -/
theorem handleRayQueue_finish_rules_witness :
    (shadowHitRay.toVisit ≠ [] ∧ (id shadowHitRay).isShadowRay = true ∧
      (id shadowHitRay).hit.isSome = true) ∧
    handleRay id (fun _ => []) shadowHitRay =
      RayStepResult.finished
        { id shadowHitRay with
          Ld := if (id shadowHitRay).hit.isSome then RGBSpectrum.zero
                else (id shadowHitRay).Ld }
        false :=
  ⟨⟨by decide, by decide, by decide⟩,
   (handleRayQueue_finish_rules id (fun _ => []) shadowHitRay
      (by decide)).1 (by decide) (Or.inl (by decide))⟩

/-- **C9**: a dequeued ray with empty `toVisit` and no hit hits the
`throw runtime_error("invalid ray in ray queue")` branch; under the
precondition that a ray has a traversal frame or a hit, that branch is
unreachable. -/
theorem handleRayQueue_invalid_ray (trace : RayState → RayState)
    (shade : RayState → List RayState) (ray : RayState) :
    (ray.toVisit = [] → ray.hit = none →
      handleRay trace shade ray = RayStepResult.invalidRay) ∧
    (ray.toVisit ≠ [] ∨ ray.hit.isSome = true →
      handleRay trace shade ray ≠ RayStepResult.invalidRay) := by
  constructor
  · intro hv hh
    simp [handleRay, hv, hh]
  · intro h
    rcases h with hv | hh
    · have hne : ray.toVisit.isEmpty = false := by
        cases h : ray.toVisit with
        | nil => exact absurd h hv
        | cons a l => simp
      simp only [handleRay, hne, Bool.not_false, if_true]
      split_ifs <;> simp
    · by_cases hv : ray.toVisit.isEmpty
      · simp only [handleRay, hv, Bool.not_true, if_false, hh]
        simp
      · simp only [handleRay, hv, Bool.not_false, if_true]
        split_ifs <;> simp

/-- Witness for `handleRayQueue_invalid_ray`: the concrete ray with no
traversal frames and no hit is rejected as invalid. -/
theorem handleRayQueue_invalid_ray_witness :
    handleRay id (fun _ => []) invalidQueueRay = RayStepResult.invalidRay :=
  (handleRayQueue_invalid_ray id (fun _ => []) invalidQueueRay).1 rfl rfl

theorem routeRay_preserves_inv (s : WorkerEngineState) (ray : RayState)
    (h : WQInv s) : WQInv (routeRay s ray) := by
  obtain ⟨hout, hpend⟩ := h
  simp only [routeRay]
  split
  · exact ⟨hout, hpend⟩
  · split
    next hw =>
      refine ⟨?_, hpend⟩
      intro t ht
      by_cases hts : t = ray.currentTreelet
      · subst hts
        exact hw
      · exact hout t (by simpa [updF, hts] using ht)
    next hw =>
      refine ⟨hout, ?_⟩
      intro t ht
      by_cases hts : t = ray.currentTreelet
      · subst hts
        simpa using hw
      · exact hpend t (by simpa [updF, hts] using ht)

theorem addTreeletHolder_preserves_inv (wid : Nat) (s : WorkerEngineState)
    (t : Nat) (h : WQInv s) : WQInv (addTreeletHolder wid s t) := by
  obtain ⟨hout, hpend⟩ := h
  constructor
  · intro t' ht'
    by_cases hts : t' = t
    · subst hts
      simp [addTreeletHolder, updF]
    · simp only [addTreeletHolder, updF, hts, if_neg, if_false] at ht' ⊢
      exact hout t' ht'
  · intro t' ht'
    by_cases hts : t' = t
    · subst hts
      simp [addTreeletHolder, updF] at ht'
    · simp only [addTreeletHolder, updF, hts, if_neg, if_false] at ht' ⊢
      exact hpend t' ht'

theorem processConnectionResponse_preserves_inv (s : WorkerEngineState)
    (wid : Nat) (treelets : List Nat) (h : WQInv s) :
    WQInv (processConnectionResponse s wid treelets) := by
  induction treelets generalizing s with
  | nil => exact h
  | cons t rest ih =>
    exact ih (addTreeletHolder wid s t) (addTreeletHolder_preserves_inv wid s t h)

/-- **C5**: in every reachable worker state — and in particular across the
routing step and the `ConnectionResponse` handler — every treelet with a
non-empty `outQueue` entry has a non-empty `treeletToWorker` holder list,
and every treelet with a non-empty `pendingQueue` entry has no
`treeletToWorker` entry. -/
theorem worker_queue_invariant (s : WorkerEngineState) (h : ReachableW s) :
    WQInv s := by
  induction h with
  | init tids =>
    exact ⟨fun t ht => absurd rfl ht, fun t ht => absurd rfl ht⟩
  | step hr hs ih =>
    cases hs with
    | route ray => exact routeRay_preserves_inv _ ray ih
    | connResp wid treelets =>
      exact processConnectionResponse_preserves_inv _ wid treelets ih
    | flushOut =>
      obtain ⟨hout, hpend⟩ := ih
      exact ⟨fun t ht => absurd rfl ht, fun t ht => hpend t ht⟩
    | getObjects tids =>
      obtain ⟨hout, hpend⟩ := ih
      exact ⟨hout, hpend⟩

/-- Witness for `worker_queue_invariant`: the freshly constructed worker
state is reachable and satisfies the invariant. -/
theorem worker_queue_invariant_witness :
    WQInv (initWorkerEngineState [0, 1]) :=
  worker_queue_invariant (initWorkerEngineState [0, 1]) (ReachableW.init [0, 1])

/-- **C7**: a peer's state becomes `Connected` only through a
`ConnectionResponse` whose `your_seed` equals the worker's `mySeed`; on a
mismatched response a `Connecting` peer stays `Connecting` and the next
upkeep tick increments `tries`; and no event ever takes a `Connected`
peer back to `Connecting`. -/
theorem peer_fsm_rules (mySeed : Nat) :
    (∀ p e, (peerStep mySeed p e).state = PeerState.Connected →
      p.state = PeerState.Connected ∨
        ∃ ms ys, e = PeerEvent.connectionResponse ms ys ∧ ys = mySeed) ∧
    (∀ p ms ys, ys ≠ mySeed → p.state = PeerState.Connecting →
      (peerStep mySeed p (PeerEvent.connectionResponse ms ys)).state =
        PeerState.Connecting ∧
      (peerStep mySeed (peerStep mySeed p (PeerEvent.connectionResponse ms ys))
          PeerEvent.upkeepTick).tries =
        (peerStep mySeed p (PeerEvent.connectionResponse ms ys)).tries + 1) ∧
    (∀ p e, p.state = PeerState.Connected →
      (peerStep mySeed p e).state = PeerState.Connected) := by
  refine ⟨?_, ?_, ?_⟩
  · intro p e h
    cases e with
    | connectionResponse ms ys =>
      by_cases hc : p.state ≠ PeerState.Connected ∧ ys = mySeed
      · exact Or.inr ⟨ms, ys, rfl, hc.2⟩
      · simp only [peerStep, if_neg hc] at h
        exact Or.inl h
    | upkeepTick =>
      cases hs : p.state with
      | Connecting => simp [peerStep, hs] at h
      | Connected => exact Or.inl rfl
  · intro p ms ys hne hst
    obtain ⟨st, seed, tries⟩ := p
    change st = PeerState.Connecting at hst
    subst hst
    constructor
    · simp [peerStep, hne]
    · simp [peerStep, hne]
  · intro p e h
    cases e with
    | connectionResponse ms ys =>
      have hc : ¬({ p with seed := ms }.state ≠ PeerState.Connected ∧
          ys = mySeed) := by
        intro hc
        exact hc.1 h
      simp only [peerStep, if_neg hc]
      exact h
    | upkeepTick =>
      simp only [peerStep, h]

/-- Witness for `peer_fsm_rules`: a mismatched `ConnectionResponse`
(`your_seed = 4`, `mySeed = 5`) leaves the concrete `Connecting` peer
connecting and the next upkeep bumps `tries`. -/
theorem peer_fsm_rules_witness :
    (peerStep 5 connectingPeer (PeerEvent.connectionResponse 9 4)).state =
      PeerState.Connecting ∧
    (peerStep 5 (peerStep 5 connectingPeer (PeerEvent.connectionResponse 9 4))
        PeerEvent.upkeepTick).tries =
      (peerStep 5 connectingPeer (PeerEvent.connectionResponse 9 4)).tries
        + 1 :=
  (peer_fsm_rules 5).2.1 connectingPeer 9 4 (by decide) (by decide)

/-- **C6** (code bug): flushing an `outQueue` entry holding three
serialized rays of 700 bytes each (framed length 704) emits two datagrams;
the held ray is written into the second datagram without being counted
against `packetLen`, so the second payload is 704 + 704 = 1408 bytes,
exceeding the 1400-byte `UDP_MTU_BYTES` budget. -/
theorem handleOutQueue_mtu_overflow :
    handleOutQueuePack [700, 700, 700] = [[700], [700, 700]] ∧
    payloadSize [700, 700] = 1408 ∧
    UDP_MTU_BYTES < payloadSize [700, 700] := by decide

theorem processWorkerRequest_eq_some (s : MasterState)
    (choose : List Nat → Nat) (req : Nat × Nat)
    (h : requestServed s choose req = true) :
    processWorkerRequest s choose req = some (connectToPair s choose req) := by
  simp only [requestServed, Bool.and_eq_true, Bool.not_eq_true',
    List.isEmpty_eq_false] at h
  obtain ⟨⟨h0, h1⟩, h2⟩ := h
  simp [processWorkerRequest, connectToPair, h0, h1, h2]

theorem processWorkerRequest_eq_none (s : MasterState)
    (choose : List Nat → Nat) (req : Nat × Nat)
    (h : requestServed s choose req = false) :
    processWorkerRequest s choose req = none := by
  by_cases h0 : s.holders req.2 = []
  · simp [processWorkerRequest, h0]
  · by_cases h1 : s.udpKnown req.1 = true
    · by_cases h2 : s.udpKnown (choose (s.holders req.2)) = true
      · exfalso
        have : requestServed s choose req = true := by
          simp [requestServed, h0, h1, h2]
        rw [this] at h
        exact absurd h (by simp)
      · simp [processWorkerRequest, h0, h1, h2]
    · simp [processWorkerRequest, h0, h1]

theorem workerRequestFold (s : MasterState) (choose : List Nat → Nat) :
    ∀ (l a1 : List (Nat × Nat)) (a2 : List (Nat × Nat)),
      l.foldl
        (fun acc req =>
          match processWorkerRequest s choose req with
          | none => (acc.1 ++ [req], acc.2)
          | some ms => (acc.1, acc.2 ++ ms))
        (a1, a2) =
      (a1 ++ l.filter (fun r => !requestServed s choose r),
       a2 ++ (l.filter (requestServed s choose)).flatMap
         (connectToPair s choose)) := by
  intro l
  induction l with
  | nil => intro a1 a2; simp
  | cons r rest ih =>
    intro a1 a2
    by_cases hs : requestServed s choose r
    · rw [List.foldl_cons, processWorkerRequest_eq_some s choose r hs]
      dsimp only
      rw [ih]
      simp [hs]
    · rw [List.foldl_cons,
        processWorkerRequest_eq_none s choose r (by simpa using hs)]
      dsimp only
      rw [ih]
      simp [hs]

/-- **C8** (amended): below the 90 % threshold the batch does nothing; at
or above it, each pending request whose treelet has a holder *and* whose
requester and chosen holder both have known UDP addresses produces the
mutual `ConnectTo` pair, and every other request — no holder yet, or an
endpoint without a bound UDP address — is re-queued in order. -/
theorem handleWorkerRequests_characterization (s : MasterState)
    (choose : List Nat → Nat) :
    handleWorkerRequests s choose =
      if 10 * s.readyWorkerCount < 9 * s.numberOfLambdas then
        (s, [])
      else
        ({ s with
            pending := s.pending.filter
              (fun r => !requestServed s choose r) },
         (s.pending.filter (requestServed s choose)).flatMap
           (connectToPair s choose)) := by
  by_cases hth : 10 * s.readyWorkerCount < 9 * s.numberOfLambdas
  · simp [handleWorkerRequests, hth]
  · simp only [handleWorkerRequests, hth, if_neg, if_false]
    rw [workerRequestFold]
    simp

/-- **C8** (counterexample to the claim as stated): in
`missingAddressState` the 90 % threshold is met and treelet 7 has a
holder, yet the batch sends no `ConnectTo` message at all and re-queues
the request, because the requesting worker's UDP address is unknown. -/
theorem handleWorkerRequests_missing_address :
    ¬(10 * missingAddressState.readyWorkerCount <
        9 * missingAddressState.numberOfLambdas) ∧
    missingAddressState.holders 7 ≠ [] ∧
    (handleWorkerRequests missingAddressState chooseHead).2 = [] ∧
    (handleWorkerRequests missingAddressState chooseHead).1.pending =
      [(1, 7)] := by decide

/-- **C10**: assigning an object a worker already holds changes nothing —
not the worker's object set, not its `freeSpace`, not the object's holder
set — and a second assignment of the same object right after a first one
is always a no-op, so `freeSpace` is debited at most once per
(worker, object) pair even when treelet dependency closures overlap. -/
theorem assignObject_idempotent (sceneObjects : ObjectKey → SceneObjectInfo)
    (worker : Worker) (object : ObjectKey) :
    (object ∈ worker.objects →
      assignObject sceneObjects worker object = (worker, sceneObjects)) ∧
    assignObject (assignObject sceneObjects worker object).2
        (assignObject sceneObjects worker object).1 object =
      assignObject sceneObjects worker object := by
  constructor
  · intro h
    simp [assignObject, h]
  · by_cases h : object ∈ worker.objects
    · simp [assignObject, h]
    · simp [assignObject, h, List.mem_insert_self]

/-- Witness for `assignObject_idempotent`: re-assigning treelet 0 to the
worker that already holds it leaves both the worker and the scene table
unchanged. -/
theorem assignObject_idempotent_witness :
    assignObject flatScene holderWorker ⟨ObjectType.Treelet, 0⟩ =
      (holderWorker, flatScene) :=
  (assignObject_idempotent flatScene holderWorker
    ⟨ObjectType.Treelet, 0⟩).1 (by decide)
